import Mathlib

/-!
Verification development for the azure cleanup scripts repository.
Each script's control logic is shallow-embedded as pure Lean functions:
interactive standard input is a stream `inputs : Nat → String` together with
an index of the next unread line, and each provider call's behaviour is an
explicit parameter (success, HTTP error, or an unclassified exception).
-/

namespace CloudCleanup

/-! ## ARC: scripts/azure-resource-cleanup.py -/

namespace ARC

/-- Behaviour of one `begin_delete` + `wait()` attempt on a resource group:
it either completes, raises `HttpResponseError`, or raises some other
exception (which the script's item-level `except HttpResponseError` clause
does not catch). -/
inductive Beh where
  | ok : Beh
  | httpError (reason : String) : Beh
  | otherError (reason : String) : Beh
deriving DecidableEq, Repr

/-- Per-item outcome of `delete_resource_groups`, read off the printed lines:
a dry-run simulation line, a skip line after a failed confirmation, a success
line, or the error line of the `except HttpResponseError` handler. -/
inductive Outcome where
  | simulated : Outcome
  | skippedNotConfirmed : Outcome
  | succeeded : Outcome
  | failed (reason : String) : Outcome
deriving DecidableEq, Repr

/-- Result of the `delete_resource_groups` loop: the outcome recorded per
group in order, the groups on which `begin_delete` was invoked, the index of
the next unread stdin line, and, when a non-`HttpResponseError` exception
escaped the loop, its message. -/
structure RGResult where
  results : List (String × Outcome)
  deletes : List String
  nextInput : Nat
  escaped : Option String
deriving DecidableEq, Repr

/-- Models `delete_resource_groups(credential, subscription_id, dry_run)`.
For each group in order: dry-run prints and continues; otherwise one stdin
line is read and compared against `"delete " ++ name`; on match,
`begin_delete` runs and `HttpResponseError` is caught while any other
exception escapes, aborting the loop. -/
def delete_resource_groups (dryRun : Bool) (inputs : Nat → String)
    (beh : String → Beh) : List String → Nat → RGResult
  | [], k => ⟨[], [], k, none⟩
  | g :: rest, k =>
    if dryRun then
      let r := delete_resource_groups dryRun inputs beh rest k
      ⟨(g, Outcome.simulated) :: r.results, r.deletes, r.nextInput, r.escaped⟩
    else if inputs k ≠ "delete " ++ g then
      let r := delete_resource_groups dryRun inputs beh rest (k + 1)
      ⟨(g, Outcome.skippedNotConfirmed) :: r.results, r.deletes, r.nextInput, r.escaped⟩
    else
      match beh g with
      | Beh.ok =>
        let r := delete_resource_groups dryRun inputs beh rest (k + 1)
        ⟨(g, Outcome.succeeded) :: r.results, g :: r.deletes, r.nextInput, r.escaped⟩
      | Beh.httpError reason =>
        let r := delete_resource_groups dryRun inputs beh rest (k + 1)
        ⟨(g, Outcome.failed reason) :: r.results, g :: r.deletes, r.nextInput, r.escaped⟩
      | Beh.otherError reason => ⟨[], [g], k + 1, some reason⟩

/-- Command-line flags of azure-resource-cleanup.py that the control flow
consults (`--force` is parsed by the script but never read). -/
structure Args where
  dryRun : Bool
  subscription : Option String
deriving DecidableEq, Repr

/-- One subscription as enumerated by `get_subscriptions`, together with the
resource groups its `ResourceManagementClient` would list. -/
structure Sub where
  subscriptionId : String
  displayName : String
  groups : List String
deriving DecidableEq, Repr

/-- Result of `main`: the process exit code, the recorded outcomes tagged by
subscription, and the `begin_delete` calls tagged by subscription. -/
structure MainResult where
  exitCode : Nat
  results : List (String × String × Outcome)
  deletes : List (String × String)
deriving DecidableEq, Repr

/-- Models the per-subscription loop of `main`: when not in dry-run mode each
subscription requires typing `"process " ++ id`; a mismatch skips that
subscription. An exception escaping `delete_resource_groups` propagates out
of the loop (to `main`'s catch-all handler). -/
def processSubs (dryRun : Bool) (inputs : Nat → String)
    (beh : String → String → Beh) :
    List Sub → Nat → List (String × String × Outcome) × List (String × String) × Option String
  | [], _ => ([], [], none)
  | s :: rest, k =>
    if dryRun then
      let r := delete_resource_groups true inputs (beh s.subscriptionId) s.groups k
      let t := processSubs dryRun inputs beh rest r.nextInput
      (r.results.map (fun p => (s.subscriptionId, p)) ++ t.1,
       r.deletes.map (fun g => (s.subscriptionId, g)) ++ t.2.1, t.2.2)
    else if inputs k ≠ "process " ++ s.subscriptionId then
      processSubs dryRun inputs beh rest (k + 1)
    else
      let r := delete_resource_groups false inputs (beh s.subscriptionId) s.groups (k + 1)
      match r.escaped with
      | some e =>
        (r.results.map (fun p => (s.subscriptionId, p)),
         r.deletes.map (fun g => (s.subscriptionId, g)), some e)
      | none =>
        let t := processSubs dryRun inputs beh rest r.nextInput
        (r.results.map (fun p => (s.subscriptionId, p)) ++ t.1,
         r.deletes.map (fun g => (s.subscriptionId, g)) ++ t.2.1, t.2.2)

/-- Models `main()` of azure-resource-cleanup.py. The global gate runs only
without `--dry-run`; `setup` stands for credential acquisition plus
`get_subscriptions`, whose exceptions reach `main`'s `except Exception`
handler, which only prints — so every path returns `None` and the process
exits 0. -/
def main (args : Args) (inputs : Nat → String)
    (setup : Except String (List Sub)) (beh : String → String → Beh) :
    MainResult :=
  if ¬args.dryRun ∧ inputs 0 ≠ "I UNDERSTAND THE CONSEQUENCES" then ⟨0, [], []⟩
  else
    let k0 : Nat := if args.dryRun then 0 else 1
    match setup with
    | Except.error _ => ⟨0, [], []⟩
    | Except.ok subs =>
      if subs = [] then ⟨0, [], []⟩
      else
        let subs2 := match args.subscription with
          | none => subs
          | some sid => subs.filter (fun s => s.subscriptionId = sid)
        if args.subscription.isSome ∧ subs2 = [] then ⟨0, [], []⟩
        else
          let r := processSubs args.dryRun inputs beh subs2 k0
          ⟨0, r.1, r.2.1⟩

end ARC

/-! ## CR: scripts/cleanup-resources.py -/

namespace CR

/-- Behaviour of one `begin_delete` attempt on a resource group: it either
returns a long-running operation whose successive `status()` values while
`done()` is false form `trace`, or raises `HttpResponseError`. -/
inductive Beh where
  | ok (trace : List String) : Beh
  | httpError (reason : String) : Beh
deriving DecidableEq, Repr

/-- Per-item outcome of `delete_resource_groups`, read off the printed
lines. -/
inductive Outcome where
  | simulated : Outcome
  | skippedNotConfirmed : Outcome
  | succeeded : Outcome
  | failed (reason : String) : Outcome
deriving DecidableEq, Repr

/-- Observable events of one item's processing: the `begin_delete` call, one
`status()` poll per loop iteration, the `Status:` line printed when the
polled status differs from the previous one, the `time.sleep(5)` at the end
of each iteration, and the final success line. -/
inductive Event where
  | beginDelete (group : String) : Event
  | poll (status : String) : Event
  | printStatus (status : String) : Event
  | sleep (seconds : Nat) : Event
  | recordSuccess (group : String) : Event
deriving DecidableEq, Repr

/-- Models the `while not delete_operation.done():` loop: each iteration
polls `status()`, prints the status only when it changed, then sleeps 5
seconds; the loop exits when `done()` becomes true, i.e. when the trace is
exhausted. -/
def pollLoop (status : String) : List String → List Event
  | [] => []
  | s :: rest =>
    if s ≠ status then
      Event.poll s :: Event.printStatus s :: Event.sleep 5 :: pollLoop s rest
    else
      Event.poll s :: Event.sleep 5 :: pollLoop status rest

/-- Models the `try:` body for one confirmed group whose `begin_delete`
returns normally: start the deletion, run the polling loop from the initial
`status = ""`, then print the success line. -/
def deleteOne (g : String) (trace : List String) : List Event :=
  Event.beginDelete g :: (pollLoop "" trace ++ [Event.recordSuccess g])

/-- Statuses printed by an event sequence, in order. -/
def printedStatuses (es : List Event) : List String :=
  es.filterMap (fun e => match e with
    | Event.printStatus s => some s
    | _ => none)

/-- Statuses polled by an event sequence, in order. -/
def polledStatuses (es : List Event) : List String :=
  es.filterMap (fun e => match e with
    | Event.poll s => some s
    | _ => none)

/-- Sleep durations of an event sequence, in order. -/
def sleepDurations (es : List Event) : List Nat :=
  es.filterMap (fun e => match e with
    | Event.sleep n => some n
    | _ => none)

/-- Removes consecutive repeats of a list relative to a previous value:
exactly the statuses the polling loop prints. -/
def dedupFrom (prev : String) : List String → List String
  | [] => []
  | s :: rest => if s ≠ prev then s :: dedupFrom s rest else dedupFrom prev rest

/-- Classifies one confirmed deletion attempt the way the `try`/`except
HttpResponseError` block records it. -/
def classify : Beh → Outcome
  | Beh.ok _ => Outcome.succeeded
  | Beh.httpError reason => Outcome.failed reason

/-- Result of the `delete_resource_groups` loop of cleanup-resources.py. -/
structure RGResult where
  results : List (String × Outcome)
  deletes : List String
  nextInput : Nat
deriving DecidableEq, Repr

/-- Models `delete_resource_groups(credential, subscription_id, dry_run,
skip_confirmation)`: dry-run prints and continues; the per-item confirmation
is read only when `skip_confirmation` is false; on a confirmed (or
unconfirmed-gate-skipped) item, `begin_delete` runs and `HttpResponseError`
is recorded as an error line. -/
def delete_resource_groups (dryRun skipConf : Bool) (inputs : Nat → String)
    (beh : String → Beh) : List String → Nat → RGResult
  | [], k => ⟨[], [], k⟩
  | g :: rest, k =>
    if dryRun then
      let r := delete_resource_groups dryRun skipConf inputs beh rest k
      ⟨(g, Outcome.simulated) :: r.results, r.deletes, r.nextInput⟩
    else if skipConf then
      let r := delete_resource_groups dryRun skipConf inputs beh rest k
      ⟨(g, classify (beh g)) :: r.results, g :: r.deletes, r.nextInput⟩
    else if inputs k ≠ "delete " ++ g then
      let r := delete_resource_groups dryRun skipConf inputs beh rest (k + 1)
      ⟨(g, Outcome.skippedNotConfirmed) :: r.results, r.deletes, r.nextInput⟩
    else
      let r := delete_resource_groups dryRun skipConf inputs beh rest (k + 1)
      ⟨(g, classify (beh g)) :: r.results, g :: r.deletes, r.nextInput⟩

/-- Command-line flags of cleanup-resources.py. -/
structure Args where
  dryRun : Bool
  subscription : Option String
  skipConfirmation : Bool
deriving DecidableEq, Repr

/-- One subscription with the resource groups listed in it. -/
structure Sub where
  subscriptionId : String
  displayName : String
  groups : List String
deriving DecidableEq, Repr

/-- Result of `main`: exit code (via `sys.exit(main() or 0)`), outcomes and
`begin_delete` calls tagged by subscription, and the number of stdin lines
read. -/
structure MainResult where
  exitCode : Nat
  results : List (String × String × Outcome)
  deletes : List (String × String)
  inputsUsed : Nat
deriving DecidableEq, Repr

/-- Models the per-subscription loop of `main`: the `"process " ++ id`
confirmation is read only when neither `--dry-run` nor
`--skip-confirmation` is set. -/
def processSubs (dryRun skipConf : Bool) (inputs : Nat → String)
    (beh : String → String → Beh) :
    List Sub → Nat → List (String × String × Outcome) × List (String × String) × Nat
  | [], k => ([], [], k)
  | s :: rest, k =>
    if ¬dryRun ∧ ¬skipConf then
      if inputs k ≠ "process " ++ s.subscriptionId then
        processSubs dryRun skipConf inputs beh rest (k + 1)
      else
        let r := delete_resource_groups dryRun skipConf inputs
          (beh s.subscriptionId) s.groups (k + 1)
        let t := processSubs dryRun skipConf inputs beh rest r.nextInput
        (r.results.map (fun p => (s.subscriptionId, p)) ++ t.1,
         r.deletes.map (fun g => (s.subscriptionId, g)) ++ t.2.1, t.2.2)
    else
      let r := delete_resource_groups dryRun skipConf inputs
        (beh s.subscriptionId) s.groups k
      let t := processSubs dryRun skipConf inputs beh rest r.nextInput
      (r.results.map (fun p => (s.subscriptionId, p)) ++ t.1,
       r.deletes.map (fun g => (s.subscriptionId, g)) ++ t.2.1, t.2.2)

/-- Models `main()` of cleanup-resources.py: the global gate runs only when
neither `--dry-run` nor `--skip-confirmation` is set and aborts on anything
but the exact phrase; `setup` stands for `get_credential` plus
`get_subscriptions`, whose exceptions reach the `except` handler that
returns 1; every other path returns `None`, so `sys.exit(main() or 0)`
exits 0. -/
def main (args : Args) (inputs : Nat → String)
    (setup : Except String (List Sub)) (beh : String → String → Beh) :
    MainResult :=
  if ¬args.dryRun ∧ ¬args.skipConfirmation ∧ inputs 0 ≠ "DELETE ALL RESOURCES" then
    ⟨0, [], [], 1⟩
  else
    let k0 : Nat := if ¬args.dryRun ∧ ¬args.skipConfirmation then 1 else 0
    match setup with
    | Except.error _ => ⟨1, [], [], k0⟩
    | Except.ok subs =>
      if subs = [] then ⟨0, [], [], k0⟩
      else
        let subs2 := match args.subscription with
          | none => subs
          | some sid => subs.filter (fun s => s.subscriptionId = sid)
        if args.subscription.isSome ∧ subs2 = [] then ⟨0, [], [], k0⟩
        else
          let r := processSubs args.dryRun args.skipConfirmation inputs beh subs2 k0
          ⟨0, r.1, r.2.1, r.2.2⟩

end CR

/-! ## GR: scripts/delete-git-repos.py -/

namespace GR

/-- One repository as returned by `az repos list`. -/
structure Repo where
  id : String
  name : String
deriving DecidableEq, Repr

/-- Behaviour of one `az repos delete` subprocess call: exit code 0, a
non-zero exit code with its stderr, or an exception raised during the
call. -/
inductive DelBeh where
  | retOk : DelBeh
  | retErr (stderr : String) : DelBeh
  | exc (msg : String) : DelBeh
deriving DecidableEq, Repr

/-- Models `delete_repository(repo_id, project)`: returns `True` exactly when
the subprocess exits 0; a non-zero exit prints stderr and returns `False`;
the `except Exception` clause catches any exception and returns `False`. -/
def delete_repository : DelBeh → Bool
  | DelBeh.retOk => true
  | DelBeh.retErr _ => false
  | DelBeh.exc _ => false

/-- The list comprehension `[repo for repo in repositories if repo["name"]
not in exclude_list]`. -/
def repos_to_delete (repos : List Repo) (excl : List String) : List Repo :=
  repos.filter (fun r => ¬ r.name ∈ excl)

/-- The list comprehension `[repo for repo in repositories if repo["name"]
in exclude_list]`. -/
def excluded_repos (repos : List Repo) (excl : List String) : List Repo :=
  repos.filter (fun r => r.name ∈ excl)

/-- Models the deletion loop of `main`: each repository in
`repos_to_delete`, in order, gets one `delete_repository` call and one
Success/Failed line. -/
def runDeletions (beh : String → DelBeh) : List Repo → List (Repo × Bool)
  | [] => []
  | r :: rest => (r, delete_repository (beh r.id)) :: runDeletions beh rest

/-- The `success_count` accumulated by the deletion loop. -/
def successCount (outs : List (Repo × Bool)) : Nat :=
  outs.countP (fun p => p.2 = true)

/-- Behaviour of `ensure_devops_extension`: the extension is already
installed, missing but installs cleanly, missing and the install fails
(`sys.exit(1)`), or the extension check itself raises `CalledProcessError`
(`sys.exit(1)`). -/
inductive ExtBeh where
  | installed : ExtBeh
  | missingInstallOk : ExtBeh
  | missingInstallFails : ExtBeh
  | checkError : ExtBeh
deriving DecidableEq, Repr

/-- Exit code forced by `ensure_devops_extension`, `none` when it returns
normally. -/
def ensure_devops_extension : ExtBeh → Option Nat
  | ExtBeh.installed => none
  | ExtBeh.missingInstallOk => none
  | ExtBeh.missingInstallFails => some 1
  | ExtBeh.checkError => some 1

/-- Behaviour of a checked `az` call (`configure_devops_defaults` or
`list_repositories`): success or `CalledProcessError` (`sys.exit(1)`). -/
inductive CmdBeh where
  | ok : CmdBeh
  | err : CmdBeh
deriving DecidableEq, Repr

/-- Models Python's `confirm.lower()` on the confirmation input: ASCII case
folding, character by character (the y/N prompt only distinguishes ASCII
letters). -/
def lower (s : String) : String := ⟨s.data.map Char.toLower⟩

/-- Result of `main`: the process exit code, the per-repository outcomes,
and the repository ids passed to `az repos delete`. -/
structure MainResult where
  exitCode : Nat
  outcomes : List (Repo × Bool)
  deleteCalls : List String
deriving DecidableEq, Repr

/-- Models `main()` of delete-git-repos.py. Setup failures call
`sys.exit(1)`; an empty project or an empty post-exclusion list returns
early; without `--confirm` one stdin line is read and the run is cancelled
unless its lowercase form is `"y"`; otherwise every repository in
`repos_to_delete` is deleted in order. `main` itself always returns `None`,
so a completed run exits 0. -/
def main (ext : ExtBeh) (cfg : CmdBeh) (lst : Except Unit (List Repo))
    (excl : List String) (confirmFlag : Bool) (input : String)
    (beh : String → DelBeh) : MainResult :=
  match ensure_devops_extension ext with
  | some c => ⟨c, [], []⟩
  | none =>
    match cfg with
    | CmdBeh.err => ⟨1, [], []⟩
    | CmdBeh.ok =>
      match lst with
      | Except.error _ => ⟨1, [], []⟩
      | Except.ok repos =>
        if repos = [] then ⟨0, [], []⟩
        else
          let toDel := repos_to_delete repos excl
          if toDel = [] then ⟨0, [], []⟩
          else if ¬confirmFlag ∧ lower input ≠ "y" then ⟨0, [], []⟩
          else ⟨0, runDeletions beh toDel, toDel.map (fun r => r.id)⟩

end GR

/-! ## LI: scripts/delete-library-items.py -/

namespace LI

/-- One variable group as returned by `az pipelines variable-group list`. -/
structure VarGroup where
  id : Nat
  name : String
deriving DecidableEq, Repr

/-- The list comprehension `[group for group in variable_groups if
group["name"] not in exclude_list]`. -/
def groups_to_delete (gs : List VarGroup) (excl : List String) : List VarGroup :=
  gs.filter (fun g => ¬ g.name ∈ excl)

/-- The list comprehension `[group for group in variable_groups if
group["name"] in exclude_list]`. -/
def excluded_groups (gs : List VarGroup) (excl : List String) : List VarGroup :=
  gs.filter (fun g => g.name ∈ excl)

end LI

/-! ## DP: scripts/delete-pipelines.py -/

namespace DP

/-- One pipeline run as returned by `az pipelines runs list`; `state` is
`run.get('state')`, absent when the JSON object has no `state` key. -/
structure Run where
  id : Nat
  state : Option String
deriving DecidableEq, Repr

/-- The literal list the script compares `run.get('state')` against. -/
def cancelableStates : List String := ["inProgress", "notStarted", "queued"]

/-- What happened to one run in the per-run loop: its cancel call
succeeded, its cancel call failed, or it was skipped with the
"already in state" message. -/
inductive RunOutcome where
  | canceled : RunOutcome
  | cancelFailed : RunOutcome
  | skippedState : RunOutcome
deriving DecidableEq, Repr

/-- Models the body of the per-run loop: `az pipelines runs cancel` is
invoked only when `run.get('state')` is one of `inProgress`, `notStarted`,
`queued`; otherwise the run is skipped. Returns the outcome and the ids on
which cancel was called. -/
def processRun (cancelBeh : Nat → Bool) (r : Run) : RunOutcome × List Nat :=
  match r.state with
  | some s =>
    if s ∈ cancelableStates then
      if cancelBeh r.id then (RunOutcome.canceled, [r.id])
      else (RunOutcome.cancelFailed, [r.id])
    else (RunOutcome.skippedState, [])
  | none => (RunOutcome.skippedState, [])

/-- One pipeline as returned by `az pipelines list`. -/
structure Pipeline where
  id : Nat
  name : String
deriving DecidableEq, Repr

/-- The list comprehension `[pipeline for pipeline in pipelines if
pipeline["name"] not in exclude_list]`. -/
def pipelines_to_process (ps : List Pipeline) (excl : List String) : List Pipeline :=
  ps.filter (fun p => ¬ p.name ∈ excl)

/-- The list comprehension `[pipeline for pipeline in pipelines if
pipeline["name"] in exclude_list]`. -/
def excluded_pipelines (ps : List Pipeline) (excl : List String) : List Pipeline :=
  ps.filter (fun p => p.name ∈ excl)

/-- Accumulated result of the `for pipeline in pipelines_to_process` loop. -/
structure LoopResult where
  runOutcomes : List (Nat × RunOutcome)
  cancelCalls : List Nat
  totalRuns : Nat
  pipeOutcomes : List (Nat × Bool)
deriving DecidableEq, Repr

/-- Models the main processing loop: for each pipeline, list its runs, add
`len(runs)` to `total_runs`, process each run, and unless `--runs-only` is
set delete the pipeline itself and record success or failure. -/
def processPipelines (runsOnly : Bool) (runsOf : Nat → List Run)
    (cancelBeh : Nat → Bool) (delBeh : Nat → Bool) :
    List Pipeline → LoopResult
  | [] => ⟨[], [], 0, []⟩
  | p :: rest =>
    let runs := runsOf p.id
    let outs := runs.map (fun r => (r.id, (processRun cancelBeh r).1))
    let calls := runs.flatMap (fun r => (processRun cancelBeh r).2)
    let pipeOut := if runsOnly then [] else [(p.id, delBeh p.id)]
    let t := processPipelines runsOnly runsOf cancelBeh delBeh rest
    ⟨outs ++ t.runOutcomes, calls ++ t.cancelCalls,
     runs.length + t.totalRuns, pipeOut ++ t.pipeOutcomes⟩

/-- The `run_success_count` accumulated by the loop. -/
def runSuccessCount (r : LoopResult) : Nat :=
  r.runOutcomes.countP (fun p => p.2 = RunOutcome.canceled)

/-- The `pipeline_success_count` accumulated by the loop. -/
def pipelineSuccessCount (r : LoopResult) : Nat :=
  r.pipeOutcomes.countP (fun p => p.2 = true)

end DP

/-! ## Helper lemmas -/

theorem filter_not_append_filter_perm {α : Type} (p : α → Bool) (l : List α) :
    List.Perm (l.filter (fun a => !(p a)) ++ l.filter p) l := by
  induction l with
  | nil => simp
  | cons a t ih =>
    cases h : p a with
    | true =>
      simpa [List.filter_cons, h] using (List.perm_middle.trans (ih.cons a))
    | false =>
      simpa [List.filter_cons, h] using ih.cons a

theorem runDeletions_fst (beh : String → GR.DelBeh) (l : List GR.Repo) :
    (GR.runDeletions beh l).map Prod.fst = l := by
  induction l with
  | nil => rfl
  | cons r t ih => simp [GR.runDeletions, ih]

theorem bool_countP_partition {α : Type} (l : List (α × Bool)) :
    l.countP (fun p => p.2 = true) + l.countP (fun p => p.2 = false) = l.length := by
  induction l with
  | nil => rfl
  | cons a t ih =>
    cases h : a.2 <;> simp [List.countP_cons, h] at ih ⊢ <;> omega

theorem runOutcome_countP_partition (l : List (Nat × DP.RunOutcome)) :
    l.countP (fun p => p.2 = DP.RunOutcome.canceled)
    + l.countP (fun p => p.2 = DP.RunOutcome.cancelFailed)
    + l.countP (fun p => p.2 = DP.RunOutcome.skippedState) = l.length := by
  induction l with
  | nil => rfl
  | cons a t ih =>
    cases h : a.2 <;> simp [List.countP_cons, h] at ih ⊢ <;> omega

theorem processPipelines_runOutcomes_fst (runsOnly : Bool) (runsOf : Nat → List DP.Run)
    (cancelBeh delBeh : Nat → Bool) (ps : List DP.Pipeline) :
    (DP.processPipelines runsOnly runsOf cancelBeh delBeh ps).runOutcomes.map Prod.fst
      = ps.flatMap (fun p => (runsOf p.id).map (fun r => r.id)) := by
  induction ps with
  | nil => rfl
  | cons p t ih => simp [DP.processPipelines, ih]

theorem processPipelines_runOutcomes_length (runsOnly : Bool) (runsOf : Nat → List DP.Run)
    (cancelBeh delBeh : Nat → Bool) (ps : List DP.Pipeline) :
    (DP.processPipelines runsOnly runsOf cancelBeh delBeh ps).runOutcomes.length
      = (DP.processPipelines runsOnly runsOf cancelBeh delBeh ps).totalRuns := by
  induction ps with
  | nil => rfl
  | cons p t ih => simp [DP.processPipelines, ih]

theorem processPipelines_pipeOutcomes_fst (runsOf : Nat → List DP.Run)
    (cancelBeh delBeh : Nat → Bool) (ps : List DP.Pipeline) :
    (DP.processPipelines false runsOf cancelBeh delBeh ps).pipeOutcomes.map Prod.fst
      = ps.map (fun p => p.id) := by
  induction ps with
  | nil => rfl
  | cons p t ih => simp [DP.processPipelines, ih]

/-! ## Claim theorems -/

/-- C4: the exclusion filter is an order-preserving exact-match partition:
in delete-git-repos and delete-library-items alike, the to-process and
excluded lists together contain every input element exactly once (in
particular their lengths sum to the input length), each preserves the input
order (is a sublist of the input), and membership is decided by exact string
equality of the name against the exclusion list. -/
theorem exclusion_partition (repos : List GR.Repo) (vgs : List LI.VarGroup)
    (excl exclG : List String) :
    (GR.repos_to_delete repos excl).length + (GR.excluded_repos repos excl).length
        = repos.length
    ∧ List.Sublist (GR.repos_to_delete repos excl) repos
    ∧ List.Sublist (GR.excluded_repos repos excl) repos
    ∧ List.Perm (GR.repos_to_delete repos excl ++ GR.excluded_repos repos excl) repos
    ∧ (∀ r : GR.Repo, r ∈ GR.repos_to_delete repos excl ↔ r ∈ repos ∧ ¬ r.name ∈ excl)
    ∧ (∀ r : GR.Repo, r ∈ GR.excluded_repos repos excl ↔ r ∈ repos ∧ r.name ∈ excl)
    ∧ (LI.groups_to_delete vgs exclG).length + (LI.excluded_groups vgs exclG).length
        = vgs.length
    ∧ List.Sublist (LI.groups_to_delete vgs exclG) vgs
    ∧ List.Sublist (LI.excluded_groups vgs exclG) vgs
    ∧ List.Perm (LI.groups_to_delete vgs exclG ++ LI.excluded_groups vgs exclG) vgs
    ∧ (∀ g : LI.VarGroup, g ∈ LI.groups_to_delete vgs exclG ↔ g ∈ vgs ∧ ¬ g.name ∈ exclG)
    ∧ (∀ g : LI.VarGroup, g ∈ LI.excluded_groups vgs exclG ↔ g ∈ vgs ∧ g.name ∈ exclG) := by
  have hpermR : List.Perm (GR.repos_to_delete repos excl ++ GR.excluded_repos repos excl)
      repos := by
    simpa [GR.repos_to_delete, GR.excluded_repos, decide_not] using
      filter_not_append_filter_perm (fun r : GR.Repo => decide (r.name ∈ excl)) repos
  have hpermL : List.Perm (LI.groups_to_delete vgs exclG ++ LI.excluded_groups vgs exclG)
      vgs := by
    simpa [LI.groups_to_delete, LI.excluded_groups, decide_not] using
      filter_not_append_filter_perm (fun g : LI.VarGroup => decide (g.name ∈ exclG)) vgs
  refine ⟨?_, List.filter_sublist repos, List.filter_sublist repos, hpermR, ?_, ?_,
    ?_, List.filter_sublist vgs, List.filter_sublist vgs, hpermL, ?_, ?_⟩
  · have := hpermR.length_eq
    simpa [List.length_append] using this
  · intro r; simp [GR.repos_to_delete, List.mem_filter]
  · intro r; simp [GR.excluded_repos, List.mem_filter]
  · have := hpermL.length_eq
    simpa [List.length_append] using this
  · intro g; simp [LI.groups_to_delete, List.mem_filter]
  · intro g; simp [LI.excluded_groups, List.mem_filter]

/-- Witness for C4 on a concrete input: three repositories with one
excluded, and two variable groups with one excluded. -/
theorem exclusion_partition_witness :
    (GR.repos_to_delete [⟨"1", "a"⟩, ⟨"2", "b"⟩, ⟨"3", "c"⟩] ["b"]).length
        + (GR.excluded_repos [⟨"1", "a"⟩, ⟨"2", "b"⟩, ⟨"3", "c"⟩] ["b"]).length = 3
    ∧ ((⟨"2", "b"⟩ : GR.Repo) ∈
        GR.excluded_repos [⟨"1", "a"⟩, ⟨"2", "b"⟩, ⟨"3", "c"⟩] ["b"]
        ↔ (⟨"2", "b"⟩ : GR.Repo) ∈ [⟨"1", "a"⟩, ⟨"2", "b"⟩, ⟨"3", "c"⟩]
          ∧ ("b" : String) ∈ ["b"])
    ∧ (LI.groups_to_delete [⟨1, "x"⟩, ⟨2, "y"⟩] ["y"]).length
        + (LI.excluded_groups [⟨1, "x"⟩, ⟨2, "y"⟩] ["y"]).length = 2 :=
  ⟨(exclusion_partition [⟨"1", "a"⟩, ⟨"2", "b"⟩, ⟨"3", "c"⟩] [⟨1, "x"⟩, ⟨2, "y"⟩]
      ["b"] ["y"]).1,
   (exclusion_partition [⟨"1", "a"⟩, ⟨"2", "b"⟩, ⟨"3", "c"⟩] [⟨1, "x"⟩, ⟨2, "y"⟩]
      ["b"] ["y"]).2.2.2.2.2.1 ⟨"2", "b"⟩,
   (exclusion_partition [⟨"1", "a"⟩, ⟨"2", "b"⟩, ⟨"3", "c"⟩] [⟨1, "x"⟩, ⟨2, "y"⟩]
      ["b"] ["y"]).2.2.2.2.2.2.1⟩

/-- C5: terminal-state short-circuit in delete-pipelines: a run whose state
is terminal (completed/canceled/failed) is never passed to the cancel call
and is recorded as skipped, while a run in a non-terminal state (queued,
notStarted, inProgress) is passed to the cancel call. -/
theorem terminal_short_circuit (cancelBeh : Nat → Bool) (r : DP.Run) (s : String) :
    (r.state = some s → s ∈ ["completed", "canceled", "failed"] →
      DP.processRun cancelBeh r = (DP.RunOutcome.skippedState, []))
    ∧ (r.state = some s → s ∈ DP.cancelableStates →
      (DP.processRun cancelBeh r).2 = [r.id]
      ∧ ((DP.processRun cancelBeh r).1 = DP.RunOutcome.canceled
          ∨ (DP.processRun cancelBeh r).1 = DP.RunOutcome.cancelFailed))
    ∧ (r.state = none → DP.processRun cancelBeh r = (DP.RunOutcome.skippedState, [])) := by
  refine ⟨?_, ?_, ?_⟩
  · intro hs hmem
    fin_cases hmem <;> simp [DP.processRun, hs, DP.cancelableStates]
  · intro hs hmem
    cases hcb : cancelBeh r.id <;>
      fin_cases hmem <;> simp [DP.processRun, hs, DP.cancelableStates, hcb]
  · intro hs
    simp [DP.processRun, hs]

/-- Witness for C5: a completed run is skipped without a cancel call, and a
queued run is passed to cancel. -/
theorem terminal_short_circuit_witness :
    DP.processRun (fun _ => true) ⟨7, some "completed"⟩
        = (DP.RunOutcome.skippedState, [])
    ∧ (DP.processRun (fun _ => true) ⟨8, some "queued"⟩).2 = [8] :=
  ⟨(terminal_short_circuit (fun _ => true) ⟨7, some "completed"⟩ "completed").1
      rfl (by decide),
   ((terminal_short_circuit (fun _ => true) ⟨8, some "queued"⟩ "queued").2.1
      rfl (by decide)).1⟩

/-- C6: aggregate report completeness: each item that enters the deletion
loop produces exactly one outcome (the outcome list projects back onto the
item list), the summary counts are counts over the outcome tags, and they
sum to the number of items that entered: in delete-git-repos
`succeeded + failed = len(repos_to_delete)`, and in delete-pipelines each
listed run yields one outcome with `canceled + cancelFailed + skipped =
total_runs` and, when pipelines are deleted, `deleted + failed =
len(pipelines_to_process)`. -/
theorem report_completeness (beh : String → GR.DelBeh) (repos : List GR.Repo)
    (excl : List String) (runsOnly : Bool) (runsOf : Nat → List DP.Run)
    (cancelBeh delBeh : Nat → Bool) (ps : List DP.Pipeline) :
    (GR.runDeletions beh (GR.repos_to_delete repos excl)).map Prod.fst
        = GR.repos_to_delete repos excl
    ∧ GR.successCount (GR.runDeletions beh (GR.repos_to_delete repos excl))
        + (GR.runDeletions beh (GR.repos_to_delete repos excl)).countP
            (fun p => p.2 = false)
        = (GR.repos_to_delete repos excl).length
    ∧ (DP.processPipelines runsOnly runsOf cancelBeh delBeh ps).runOutcomes.length
        = (DP.processPipelines runsOnly runsOf cancelBeh delBeh ps).totalRuns
    ∧ (DP.processPipelines runsOnly runsOf cancelBeh delBeh ps).runOutcomes.map Prod.fst
        = ps.flatMap (fun p => (runsOf p.id).map (fun r => r.id))
    ∧ DP.runSuccessCount (DP.processPipelines runsOnly runsOf cancelBeh delBeh ps)
        + (DP.processPipelines runsOnly runsOf cancelBeh delBeh ps).runOutcomes.countP
            (fun p => p.2 = DP.RunOutcome.cancelFailed)
        + (DP.processPipelines runsOnly runsOf cancelBeh delBeh ps).runOutcomes.countP
            (fun p => p.2 = DP.RunOutcome.skippedState)
        = (DP.processPipelines runsOnly runsOf cancelBeh delBeh ps).totalRuns
    ∧ (runsOnly = false →
        (DP.processPipelines runsOnly runsOf cancelBeh delBeh ps).pipeOutcomes.map
            Prod.fst = ps.map (fun p => p.id)
        ∧ DP.pipelineSuccessCount (DP.processPipelines runsOnly runsOf cancelBeh delBeh ps)
            + (DP.processPipelines runsOnly runsOf cancelBeh delBeh ps).pipeOutcomes.countP
                (fun p => p.2 = false)
            = ps.length) := by
  have hfst := runDeletions_fst beh (GR.repos_to_delete repos excl)
  have hlen : (GR.runDeletions beh (GR.repos_to_delete repos excl)).length
      = (GR.repos_to_delete repos excl).length := by
    have := congrArg List.length hfst
    simpa using this
  refine ⟨hfst, ?_, processPipelines_runOutcomes_length runsOnly runsOf cancelBeh delBeh ps,
    processPipelines_runOutcomes_fst runsOnly runsOf cancelBeh delBeh ps, ?_, ?_⟩
  · rw [GR.successCount, bool_countP_partition, hlen]
  · rw [DP.runSuccessCount, runOutcome_countP_partition,
      processPipelines_runOutcomes_length]
  · intro h
    subst h
    have hp := processPipelines_pipeOutcomes_fst runsOf cancelBeh delBeh ps
    have hplen : (DP.processPipelines false runsOf cancelBeh delBeh ps).pipeOutcomes.length
        = ps.length := by
      have := congrArg List.length hp
      simpa using this
    exact ⟨hp, by rw [DP.pipelineSuccessCount, bool_countP_partition, hplen]⟩

/-- Witness for C6: one repository and one pipeline with two runs, one of
them cancelable; the counts add up to the totals. -/
theorem report_completeness_witness :
    GR.successCount (GR.runDeletions (fun _ => GR.DelBeh.retOk)
        (GR.repos_to_delete [⟨"1", "a"⟩] []))
      + (GR.runDeletions (fun _ => GR.DelBeh.retOk)
          (GR.repos_to_delete [⟨"1", "a"⟩] [])).countP (fun p => p.2 = false)
      = (GR.repos_to_delete [⟨"1", "a"⟩] []).length
    ∧ DP.runSuccessCount (DP.processPipelines false
          (fun _ => [⟨1, some "queued"⟩, ⟨2, some "completed"⟩])
          (fun _ => true) (fun _ => true) [⟨5, "p"⟩])
      + (DP.processPipelines false
          (fun _ => [⟨1, some "queued"⟩, ⟨2, some "completed"⟩])
          (fun _ => true) (fun _ => true) [⟨5, "p"⟩]).runOutcomes.countP
            (fun p => p.2 = DP.RunOutcome.cancelFailed)
      + (DP.processPipelines false
          (fun _ => [⟨1, some "queued"⟩, ⟨2, some "completed"⟩])
          (fun _ => true) (fun _ => true) [⟨5, "p"⟩]).runOutcomes.countP
            (fun p => p.2 = DP.RunOutcome.skippedState)
      = (DP.processPipelines false
          (fun _ => [⟨1, some "queued"⟩, ⟨2, some "completed"⟩])
          (fun _ => true) (fun _ => true) [⟨5, "p"⟩]).totalRuns :=
  ⟨(report_completeness (fun _ => GR.DelBeh.retOk) [⟨"1", "a"⟩] [] false
      (fun _ => [⟨1, some "queued"⟩, ⟨2, some "completed"⟩])
      (fun _ => true) (fun _ => true) [⟨5, "p"⟩]).2.1,
   (report_completeness (fun _ => GR.DelBeh.retOk) [⟨"1", "a"⟩] [] false
      (fun _ => [⟨1, some "queued"⟩, ⟨2, some "completed"⟩])
      (fun _ => true) (fun _ => true) [⟨5, "p"⟩]).2.2.2.2.1⟩

/-- C3 counterexample: in azure-resource-cleanup, an exception that is not
an `HttpResponseError` (here raised while deleting group "a") is not caught
at the item boundary: no `Failed` outcome is recorded for "a" (the results
list is empty), the exception escapes the loop, and the subsequent group "b"
is never processed — contrary to the claim that any exception is converted
to a Failed outcome with processing of all subsequent items continuing. -/
theorem item_fault_isolation_counterexample :
    ARC.delete_resource_groups false
      (fun n => if n = 0 then "delete a" else "delete b")
      (fun g => if g = "a" then ARC.Beh.otherError "boom" else ARC.Beh.ok)
      ["a", "b"] 0
      = ⟨[], ["a"], 1, some "boom"⟩ := by decide

/-- C3 amended: an `HttpResponseError` raised during a single item's
deletion in azure-resource-cleanup is caught at that item's boundary,
recorded as a Failed outcome, and processing of the remaining items
continues; in delete-git-repos any exception during a single repository's
deletion is caught inside `delete_repository`, converted to a failed
outcome, and the loop continues with result recorded per item; but in
azure-resource-cleanup an exception other than `HttpResponseError` escapes
the item boundary and aborts processing of all subsequent items. -/
theorem item_fault_isolation_amended (g : String) (rest : List String)
    (inputs : Nat → String) (k : Nat) (beh : String → ARC.Beh) (reason : String)
    (msg : String) (r : GR.Repo) (repoRest : List GR.Repo)
    (rbeh : String → GR.DelBeh) :
    (beh g = ARC.Beh.httpError reason → inputs k = "delete " ++ g →
      ARC.delete_resource_groups false inputs beh (g :: rest) k
        = ⟨(g, ARC.Outcome.failed reason)
              :: (ARC.delete_resource_groups false inputs beh rest (k + 1)).results,
            g :: (ARC.delete_resource_groups false inputs beh rest (k + 1)).deletes,
            (ARC.delete_resource_groups false inputs beh rest (k + 1)).nextInput,
            (ARC.delete_resource_groups false inputs beh rest (k + 1)).escaped⟩)
    ∧ (beh g = ARC.Beh.otherError reason → inputs k = "delete " ++ g →
      ARC.delete_resource_groups false inputs beh (g :: rest) k
        = ⟨[], [g], k + 1, some reason⟩)
    ∧ GR.delete_repository (GR.DelBeh.exc msg) = false
    ∧ GR.runDeletions rbeh (r :: repoRest)
        = (r, GR.delete_repository (rbeh r.id)) :: GR.runDeletions rbeh repoRest := by
  refine ⟨?_, ?_, rfl, rfl⟩
  · intro hb hi
    simp [ARC.delete_resource_groups, hb, hi]
  · intro hb hi
    simp [ARC.delete_resource_groups, hb, hi]

/-- Witness for C3 amended: an HTTP error on group "a" is recorded as
Failed and group "b" is still processed and succeeds. -/
theorem item_fault_isolation_witness :
    ARC.delete_resource_groups false
      (fun n => if n = 0 then "delete a" else "delete b")
      (fun g => if g = "a" then ARC.Beh.httpError "http 500" else ARC.Beh.ok)
      ["a", "b"] 0
      = ⟨[("a", ARC.Outcome.failed "http 500"), ("b", ARC.Outcome.succeeded)],
          ["a", "b"], 2, none⟩ :=
  ((item_fault_isolation_amended "a" ["b"]
      (fun n => if n = 0 then "delete a" else "delete b")
      0 (fun g => if g = "a" then ARC.Beh.httpError "http 500" else ARC.Beh.ok)
      "http 500" "m" ⟨"1", "x"⟩ [] (fun _ => GR.DelBeh.retOk)).1
    (by decide) (by decide)).trans (by decide)

/-- C7: per-item confirmation isolation: in both azure-resource-cleanup and
cleanup-resources, an input that does not match `"delete " ++ name` causes
only that item to be recorded as skipped-not-confirmed with no delete call
for it, and the remaining items are processed exactly as a run over them
starting at the next stdin line — a single refusal never aborts the
batch. -/
theorem per_item_confirmation_isolation (g : String) (rest : List String)
    (inputs : Nat → String) (k : Nat) (abeh : String → ARC.Beh)
    (cbeh : String → CR.Beh) :
    (inputs k ≠ "delete " ++ g →
      ARC.delete_resource_groups false inputs abeh (g :: rest) k
        = ⟨(g, ARC.Outcome.skippedNotConfirmed)
              :: (ARC.delete_resource_groups false inputs abeh rest (k + 1)).results,
            (ARC.delete_resource_groups false inputs abeh rest (k + 1)).deletes,
            (ARC.delete_resource_groups false inputs abeh rest (k + 1)).nextInput,
            (ARC.delete_resource_groups false inputs abeh rest (k + 1)).escaped⟩)
    ∧ (inputs k ≠ "delete " ++ g →
      CR.delete_resource_groups false false inputs cbeh (g :: rest) k
        = ⟨(g, CR.Outcome.skippedNotConfirmed)
              :: (CR.delete_resource_groups false false inputs cbeh rest (k + 1)).results,
            (CR.delete_resource_groups false false inputs cbeh rest (k + 1)).deletes,
            (CR.delete_resource_groups false false inputs cbeh rest (k + 1)).nextInput⟩) := by
  constructor
  · intro h
    simp [ARC.delete_resource_groups, h]
  · intro h
    simp [CR.delete_resource_groups, h]

/-- Witness for C7: refusing group "a" skips only "a"; group "b" is then
confirmed and deleted. -/
theorem per_item_confirmation_isolation_witness :
    ARC.delete_resource_groups false
      (fun n => if n = 0 then "no" else "delete b")
      (fun _ => ARC.Beh.ok) ["a", "b"] 0
      = ⟨[("a", ARC.Outcome.skippedNotConfirmed), ("b", ARC.Outcome.succeeded)],
          ["b"], 2, none⟩ :=
  ((per_item_confirmation_isolation "a" ["b"]
      (fun n => if n = 0 then "no" else "delete b") 0
      (fun _ => ARC.Beh.ok) (fun _ => CR.Beh.ok [])).1 (by decide)).trans (by decide)

theorem ARC_delete_dry (inputs : Nat → String) (beh : String → ARC.Beh)
    (gs : List String) (k : Nat) :
    ARC.delete_resource_groups true inputs beh gs k
      = ⟨gs.map (fun g => (g, ARC.Outcome.simulated)), [], k, none⟩ := by
  induction gs generalizing k with
  | nil => rfl
  | cons g t ih => simp [ARC.delete_resource_groups, ih]

theorem CR_delete_dry (skipConf : Bool) (inputs : Nat → String)
    (beh : String → CR.Beh) (gs : List String) (k : Nat) :
    CR.delete_resource_groups true skipConf inputs beh gs k
      = ⟨gs.map (fun g => (g, CR.Outcome.simulated)), [], k⟩ := by
  induction gs generalizing k with
  | nil => rfl
  | cons g t ih => simp [CR.delete_resource_groups, ih]

theorem CR_processSubs_dry (skipConf : Bool) (inputs : Nat → String)
    (beh : String → String → CR.Beh) (subs : List CR.Sub) (k : Nat) :
    CR.processSubs true skipConf inputs beh subs k
      = (subs.flatMap (fun s => s.groups.map
            (fun g => (s.subscriptionId, g, CR.Outcome.simulated))), [], k) := by
  induction subs generalizing k with
  | nil => rfl
  | cons s t ih =>
    simp [CR.processSubs, CR_delete_dry, ih, List.map_map, Function.comp]

theorem CR_main_dry_indep (args : CR.Args) (h : args.dryRun = true)
    (inputs inputs' : Nat → String) (setup : Except String (List CR.Sub))
    (beh : String → String → CR.Beh) :
    CR.main args inputs setup beh = CR.main args inputs' setup beh := by
  cases setup with
  | error msg => simp [CR.main, h]
  | ok subs0 => simp [CR.main, h, CR_processSubs_dry]

/-- C2: dry-run performs no mutation and bypasses confirmation: the
azure-resource-cleanup deletion loop in dry-run mode makes no
`begin_delete` call, reads no stdin line, and reports every group as a
simulated deletion; cleanup-resources in dry-run mode likewise makes no
delete call across all processed subscriptions, reads no stdin line
(every gate is bypassed, so the whole run is identical for any two stdin
streams), and reports every listed group of every processed subscription
as a simulated deletion. -/
theorem dryRun_no_mutation (inputs inputs' : Nat → String)
    (abeh : String → ARC.Beh) (gs : List String) (k : Nat) (skipConf : Bool)
    (subs : List CR.Sub) (args : CR.Args) (setup : Except String (List CR.Sub))
    (cbeh : String → String → CR.Beh) :
    ARC.delete_resource_groups true inputs abeh gs k
      = ⟨gs.map (fun g => (g, ARC.Outcome.simulated)), [], k, none⟩
    ∧ CR.processSubs true skipConf inputs cbeh subs k
      = (subs.flatMap (fun s => s.groups.map
            (fun g => (s.subscriptionId, g, CR.Outcome.simulated))), [], k)
    ∧ (args.dryRun = true →
        CR.main args inputs setup cbeh = CR.main args inputs' setup cbeh
        ∧ (CR.main args inputs setup cbeh).deletes = []
        ∧ (CR.main args inputs setup cbeh).inputsUsed = 0
        ∧ ∀ e ∈ (CR.main args inputs setup cbeh).results,
            e.2.2 = CR.Outcome.simulated) := by
  refine ⟨ARC_delete_dry inputs abeh gs k, CR_processSubs_dry skipConf inputs cbeh subs k, ?_⟩
  intro h
  refine ⟨CR_main_dry_indep args h inputs inputs' setup cbeh, ?_, ?_, ?_⟩
  · cases setup with
    | error msg => simp [CR.main, h]
    | ok subs0 =>
      simp [CR.main, h, CR_processSubs_dry]
      split_ifs <;> simp
  · cases setup with
    | error msg => simp [CR.main, h]
    | ok subs0 =>
      simp [CR.main, h, CR_processSubs_dry]
      split_ifs <;> simp
  · intro x hx
    cases setup with
    | error msg => simp [CR.main, h] at hx
    | ok subs0 =>
      simp [CR.main, h, CR_processSubs_dry] at hx
      split_ifs at hx <;>
        simp only [List.mem_flatMap, List.mem_map, List.not_mem_nil] at hx
      obtain ⟨s, _, g, _, hxe⟩ := hx
      rw [← hxe]

/-- Witness for C2: a concrete dry run over one subscription with two
groups mutates nothing, consumes no input, and reports both groups as
simulated. -/
theorem dryRun_no_mutation_witness :
    (CR.main ⟨true, none, false⟩ (fun _ => "x")
        (Except.ok [⟨"s1", "Sub One", ["g1", "g2"]⟩]) (fun _ _ => CR.Beh.ok [])).deletes
      = []
    ∧ (CR.main ⟨true, none, false⟩ (fun _ => "x")
        (Except.ok [⟨"s1", "Sub One", ["g1", "g2"]⟩]) (fun _ _ => CR.Beh.ok [])).inputsUsed
      = 0
    ∧ CR.main ⟨true, none, false⟩ (fun _ => "x")
        (Except.ok [⟨"s1", "Sub One", ["g1", "g2"]⟩]) (fun _ _ => CR.Beh.ok [])
      = CR.main ⟨true, none, false⟩ (fun _ => "DELETE ALL RESOURCES")
        (Except.ok [⟨"s1", "Sub One", ["g1", "g2"]⟩]) (fun _ _ => CR.Beh.ok []) :=
  ⟨((dryRun_no_mutation (fun _ => "x") (fun _ => "DELETE ALL RESOURCES")
      (fun _ => ARC.Beh.ok) [] 0 false [] ⟨true, none, false⟩
      (Except.ok [⟨"s1", "Sub One", ["g1", "g2"]⟩]) (fun _ _ => CR.Beh.ok [])).2.2
      rfl).2.1,
   ((dryRun_no_mutation (fun _ => "x") (fun _ => "DELETE ALL RESOURCES")
      (fun _ => ARC.Beh.ok) [] 0 false [] ⟨true, none, false⟩
      (Except.ok [⟨"s1", "Sub One", ["g1", "g2"]⟩]) (fun _ _ => CR.Beh.ok [])).2.2
      rfl).2.2.1,
   ((dryRun_no_mutation (fun _ => "x") (fun _ => "DELETE ALL RESOURCES")
      (fun _ => ARC.Beh.ok) [] 0 false [] ⟨true, none, false⟩
      (Except.ok [⟨"s1", "Sub One", ["g1", "g2"]⟩]) (fun _ _ => CR.Beh.ok [])).2.2
      rfl).1⟩

theorem CR_delete_skip_indep (dryRun : Bool) (inputs inputs' : Nat → String)
    (beh : String → CR.Beh) (gs : List String) (k : Nat) :
    CR.delete_resource_groups dryRun true inputs beh gs k
      = CR.delete_resource_groups dryRun true inputs' beh gs k := by
  induction gs generalizing k with
  | nil => rfl
  | cons g t ih => cases dryRun <;> simp [CR.delete_resource_groups, ih]

theorem CR_delete_skip_nextInput (dryRun : Bool) (inputs : Nat → String)
    (beh : String → CR.Beh) (gs : List String) (k : Nat) :
    (CR.delete_resource_groups dryRun true inputs beh gs k).nextInput = k := by
  induction gs generalizing k with
  | nil => rfl
  | cons g t ih => cases dryRun <;> simp [CR.delete_resource_groups, ih]

theorem CR_processSubs_skip_indep (dryRun : Bool) (inputs inputs' : Nat → String)
    (beh : String → String → CR.Beh) (subs : List CR.Sub) (k : Nat) :
    CR.processSubs dryRun true inputs beh subs k
      = CR.processSubs dryRun true inputs' beh subs k := by
  induction subs generalizing k with
  | nil => rfl
  | cons s t ih =>
    have hd := CR_delete_skip_indep dryRun inputs inputs' (beh s.subscriptionId) s.groups k
    simp [CR.processSubs, hd, CR_delete_skip_nextInput, ih]

theorem CR_processSubs_skip_inputsUsed (dryRun : Bool) (inputs : Nat → String)
    (beh : String → String → CR.Beh) (subs : List CR.Sub) (k : Nat) :
    (CR.processSubs dryRun true inputs beh subs k).2.2 = k := by
  induction subs generalizing k with
  | nil => rfl
  | cons s t ih =>
    simp [CR.processSubs, CR_delete_skip_nextInput, ih]

/-- C10: in cleanup-resources the `--skip-confirmation` flag bypasses every
human gate, not only the per-item one: when it is set, the run reads no
stdin line at all (the count of consumed input lines is zero) and the whole
run result — provider mutations included — is identical for any two
standard-input streams. -/
theorem skip_confirmation_bypasses_all_gates (args : CR.Args)
    (inputs inputs' : Nat → String) (setup : Except String (List CR.Sub))
    (beh : String → String → CR.Beh) (h : args.skipConfirmation = true) :
    CR.main args inputs setup beh = CR.main args inputs' setup beh
    ∧ (CR.main args inputs setup beh).inputsUsed = 0 := by
  constructor
  · cases setup with
    | error msg => simp [CR.main, h]
    | ok subs0 =>
      simp only [CR.main, h]
      rw [CR_processSubs_skip_indep args.dryRun inputs inputs' beh]
      simp
  · cases setup with
    | error msg => simp [CR.main, h]
    | ok subs0 =>
      simp [CR.main, h, CR_processSubs_skip_inputsUsed]
      split_ifs <;> simp [CR_processSubs_skip_inputsUsed]

/-- Witness for C10: with `--skip-confirmation`, two runs whose stdin
streams disagree everywhere produce the same result, and no input line is
consumed. -/
theorem skip_confirmation_bypasses_all_gates_witness :
    CR.main ⟨false, none, true⟩ (fun _ => "no")
        (Except.ok [⟨"s1", "Sub One", ["g1"]⟩]) (fun _ _ => CR.Beh.ok [])
      = CR.main ⟨false, none, true⟩ (fun _ => "DELETE ALL RESOURCES")
        (Except.ok [⟨"s1", "Sub One", ["g1"]⟩]) (fun _ _ => CR.Beh.ok [])
    ∧ (CR.main ⟨false, none, true⟩ (fun _ => "no")
        (Except.ok [⟨"s1", "Sub One", ["g1"]⟩]) (fun _ _ => CR.Beh.ok [])).inputsUsed
      = 0 :=
  skip_confirmation_bypasses_all_gates ⟨false, none, true⟩ (fun _ => "no")
    (fun _ => "DELETE ALL RESOURCES") (Except.ok [⟨"s1", "Sub One", ["g1"]⟩])
    (fun _ _ => CR.Beh.ok []) rfl

/-- C1 counterexample: the delete-git-repos global gate is case-insensitive,
not exact-match: the input "Y" differs from the required phrase "y" yet the
run is not aborted — the repository is deleted. -/
theorem global_gate_counterexample :
    "Y" ≠ "y"
    ∧ (GR.main GR.ExtBeh.installed GR.CmdBeh.ok (Except.ok [⟨"1", "repo"⟩]) []
        false "Y" (fun _ => GR.DelBeh.retOk)).deleteCalls = ["1"] := by
  constructor
  · decide
  · rfl

/-- C1 amended: the global confirmation gates are fail-closed up to the
case-insensitivity of delete-git-repos: in cleanup-resources, with dry-run
and skip-confirmation off, any input other than the exact phrase
"DELETE ALL RESOURCES" aborts the run with zero provider mutations and zero
items processed (and exit code 0); in delete-git-repos, without `--confirm`,
any input whose lowercase form is not "y" aborts the run with zero provider
mutations and zero items processed — but the accepted set is the
case-insensitive pair "y"/"Y", not a single exact phrase. -/
theorem global_gate_fail_closed_amended (args : CR.Args) (inputs : Nat → String)
    (setup : Except String (List CR.Sub)) (cbeh : String → String → CR.Beh)
    (ext : GR.ExtBeh) (cfg : GR.CmdBeh) (lst : Except Unit (List GR.Repo))
    (excl : List String) (input : String) (rbeh : String → GR.DelBeh) :
    (args.dryRun = false → args.skipConfirmation = false →
      inputs 0 ≠ "DELETE ALL RESOURCES" →
      CR.main args inputs setup cbeh = ⟨0, [], [], 1⟩)
    ∧ (GR.lower input ≠ "y" →
      (GR.main ext cfg lst excl false input rbeh).outcomes = []
      ∧ (GR.main ext cfg lst excl false input rbeh).deleteCalls = []) := by
  constructor
  · intro h1 h2 h3
    simp [CR.main, h1, h2, h3]
  · intro h
    cases ext <;> cases cfg <;> cases lst <;>
      simp [GR.main, GR.ensure_devops_extension] <;> split_ifs <;> simp_all

/-- Witness for C1 amended: the refused inputs "nope" (cleanup-resources)
and "no" (delete-git-repos) abort with no mutations. -/
theorem global_gate_fail_closed_witness :
    CR.main ⟨false, none, false⟩ (fun _ => "nope")
        (Except.ok [⟨"s1", "Sub One", ["g1"]⟩]) (fun _ _ => CR.Beh.ok [])
      = ⟨0, [], [], 1⟩
    ∧ (GR.main GR.ExtBeh.installed GR.CmdBeh.ok (Except.ok [⟨"1", "repo"⟩]) []
        false "no" (fun _ => GR.DelBeh.retOk)).deleteCalls = [] :=
  ⟨(global_gate_fail_closed_amended ⟨false, none, false⟩ (fun _ => "nope")
      (Except.ok [⟨"s1", "Sub One", ["g1"]⟩]) (fun _ _ => CR.Beh.ok [])
      GR.ExtBeh.installed GR.CmdBeh.ok (Except.ok [⟨"1", "repo"⟩]) [] "no"
      (fun _ => GR.DelBeh.retOk)).1 rfl rfl (by decide),
   ((global_gate_fail_closed_amended ⟨false, none, false⟩ (fun _ => "nope")
      (Except.ok [⟨"s1", "Sub One", ["g1"]⟩]) (fun _ _ => CR.Beh.ok [])
      GR.ExtBeh.installed GR.CmdBeh.ok (Except.ok [⟨"1", "repo"⟩]) [] "no"
      (fun _ => GR.DelBeh.retOk)).2 (by decide)).2⟩

/-- C8 counterexample: azure-resource-cleanup exits 0 even on an
unrecoverable setup error: when credential acquisition or subscription
enumeration raises, the `except Exception` handler only prints and `main`
returns `None`, so the process exit code is 0, contrary to the claim that a
setup error exits non-zero. -/
theorem exit_code_counterexample :
    (ARC.main ⟨false, none⟩ (fun _ => "I UNDERSTAND THE CONSEQUENCES")
      (Except.error "cannot authenticate") (fun _ _ => ARC.Beh.ok)).exitCode = 0 := by
  decide

/-- C8 amended: normal completion exits 0 regardless of per-item failures
and an aborted global confirmation exits 0 in every script; an unrecoverable
setup error exits 1 in cleanup-resources (its handler returns 1) and in
delete-git-repos (its setup helpers call `sys.exit(1)`), but
azure-resource-cleanup exits 0 on every path, setup errors included. -/
theorem exit_code_contract_amended (args : CR.Args) (inputs : Nat → String)
    (subs : List CR.Sub) (msg : String) (cbeh : String → String → CR.Beh)
    (aargs : ARC.Args) (ainputs : Nat → String)
    (asetup : Except String (List ARC.Sub)) (abeh : String → String → ARC.Beh)
    (cfg : GR.CmdBeh) (lst : Except Unit (List GR.Repo)) (excl : List String)
    (confirmFlag : Bool) (input : String) (rbeh : String → GR.DelBeh) :
    (CR.main args inputs (Except.ok subs) cbeh).exitCode = 0
    ∧ ((args.dryRun = true ∨ args.skipConfirmation = true
          ∨ inputs 0 = "DELETE ALL RESOURCES") →
        (CR.main args inputs (Except.error msg) cbeh).exitCode = 1)
    ∧ (GR.main GR.ExtBeh.missingInstallFails cfg lst excl confirmFlag input
        rbeh).exitCode = 1
    ∧ (GR.main GR.ExtBeh.checkError cfg lst excl confirmFlag input rbeh).exitCode = 1
    ∧ (GR.main GR.ExtBeh.installed GR.CmdBeh.err lst excl confirmFlag input
        rbeh).exitCode = 1
    ∧ (GR.main GR.ExtBeh.installed GR.CmdBeh.ok (Except.error ()) excl confirmFlag
        input rbeh).exitCode = 1
    ∧ (∀ repos : List GR.Repo,
        (GR.main GR.ExtBeh.installed GR.CmdBeh.ok (Except.ok repos) excl confirmFlag
          input rbeh).exitCode = 0)
    ∧ (ARC.main aargs ainputs asetup abeh).exitCode = 0 := by
  refine ⟨?_, ?_, rfl, rfl, rfl, rfl, ?_, ?_⟩
  · simp only [CR.main]
    split_ifs <;> simp
  · rintro (h | h | h) <;> simp [CR.main, h]
  · intro repos
    simp only [GR.main, GR.ensure_devops_extension]
    split_ifs <;> rfl
  · cases asetup with
    | error e =>
      simp only [ARC.main]
      split_ifs <;> rfl
    | ok asubs =>
      simp only [ARC.main]
      split_ifs <;> rfl

/-- Witness for C8 amended: a setup error in cleanup-resources with
`--dry-run` exits 1, and a delete-git-repos run whose only deletion fails
still exits 0. -/
theorem exit_code_contract_witness :
    (CR.main ⟨true, none, false⟩ (fun _ => "x")
        (Except.error "cannot authenticate") (fun _ _ => CR.Beh.ok [])).exitCode = 1
    ∧ (GR.main GR.ExtBeh.installed GR.CmdBeh.ok (Except.ok [⟨"1", "repo"⟩]) []
        true "y" (fun _ => GR.DelBeh.retErr "boom")).exitCode = 0 :=
  ⟨(exit_code_contract_amended ⟨true, none, false⟩ (fun _ => "x") [] "cannot authenticate"
      (fun _ _ => CR.Beh.ok []) ⟨false, none⟩ (fun _ => "x") (Except.ok [])
      (fun _ _ => ARC.Beh.ok) GR.CmdBeh.ok (Except.ok [⟨"1", "repo"⟩]) [] true "y"
      (fun _ => GR.DelBeh.retErr "boom")).2.1 (Or.inl rfl),
   (exit_code_contract_amended ⟨true, none, false⟩ (fun _ => "x") [] "cannot authenticate"
      (fun _ _ => CR.Beh.ok []) ⟨false, none⟩ (fun _ => "x") (Except.ok [])
      (fun _ _ => ARC.Beh.ok) GR.CmdBeh.ok (Except.ok [⟨"1", "repo"⟩]) [] true "y"
      (fun _ => GR.DelBeh.retErr "boom")).2.2.2.2.2.2.1 [⟨"1", "repo"⟩]⟩

theorem pollLoop_printed (st : String) (trace : List String) :
    CR.printedStatuses (CR.pollLoop st trace) = CR.dedupFrom st trace := by
  induction trace generalizing st with
  | nil => rfl
  | cons s rest ih =>
    simp only [CR.printedStatuses] at ih ⊢
    by_cases h : s = st <;>
      simp [CR.pollLoop, CR.dedupFrom, h, ih]

theorem pollLoop_polled (st : String) (trace : List String) :
    CR.polledStatuses (CR.pollLoop st trace) = trace := by
  induction trace generalizing st with
  | nil => rfl
  | cons s rest ih =>
    simp only [CR.polledStatuses] at ih ⊢
    by_cases h : s = st <;>
      simp [CR.pollLoop, h, ih]

theorem pollLoop_sleeps (st : String) (trace : List String) :
    CR.sleepDurations (CR.pollLoop st trace) = List.replicate trace.length 5 := by
  induction trace generalizing st with
  | nil => rfl
  | cons s rest ih =>
    simp only [CR.sleepDurations] at ih ⊢
    by_cases h : s = st <;>
      simp [CR.pollLoop, h, ih, List.replicate_succ]

theorem pollLoop_count_recordSuccess (st : String) (trace : List String) (g : String) :
    (CR.pollLoop st trace).count (CR.Event.recordSuccess g) = 0 := by
  induction trace generalizing st with
  | nil => rfl
  | cons s rest ih =>
    by_cases h : s = st <;>
      simp [CR.pollLoop, List.count_cons, h, ih]

/-- C9: long-running delete polling in cleanup-resources: for one confirmed
group whose `begin_delete` returns a long-running operation, the first event
is the delete call (no poll precedes it); every `status()` value observed
while the operation is unfinished is polled, in order, with no limit on how
many (the executor imposes no timeout); a status line is printed exactly at
each change of observed status, in order; every iteration sleeps the fixed
5-second interval (one sleep per poll); and the success line is recorded
exactly once, as the last event, only after the operation is done. -/
theorem polling_behavior (g : String) (trace : List String) :
    (CR.deleteOne g trace).head? = some (CR.Event.beginDelete g)
    ∧ CR.polledStatuses (CR.deleteOne g trace) = trace
    ∧ CR.printedStatuses (CR.deleteOne g trace) = CR.dedupFrom "" trace
    ∧ CR.sleepDurations (CR.deleteOne g trace) = List.replicate trace.length 5
    ∧ (CR.deleteOne g trace).getLast? = some (CR.Event.recordSuccess g)
    ∧ (CR.deleteOne g trace).count (CR.Event.recordSuccess g) = 1 := by
  refine ⟨rfl, ?_, ?_, ?_, ?_, ?_⟩
  · have hp := pollLoop_polled "" trace
    simp only [CR.polledStatuses] at hp ⊢
    simp [CR.deleteOne, List.filterMap_append, hp]
  · have hp := pollLoop_printed "" trace
    simp only [CR.printedStatuses] at hp ⊢
    simp [CR.deleteOne, List.filterMap_append, hp]
  · have hp := pollLoop_sleeps "" trace
    simp only [CR.sleepDurations] at hp ⊢
    simp [CR.deleteOne, List.filterMap_append, hp]
  · rw [CR.deleteOne, ← List.cons_append, List.getLast?_concat]
  · simp [CR.deleteOne, List.count_cons, List.count_append,
      pollLoop_count_recordSuccess]

/-- Witness for C9 on the spec's scenario trace queued → running →
succeeded (with a repeated queued poll): all three statuses are observed in
order before the success record, each printed once, with one 5-second sleep
per poll. -/
theorem polling_behavior_witness :
    CR.polledStatuses (CR.deleteOne "g" ["queued", "queued", "running", "succeeded"])
      = ["queued", "queued", "running", "succeeded"]
    ∧ CR.printedStatuses (CR.deleteOne "g" ["queued", "queued", "running", "succeeded"])
      = ["queued", "running", "succeeded"]
    ∧ (CR.deleteOne "g" ["queued", "queued", "running", "succeeded"]).getLast?
      = some (CR.Event.recordSuccess "g") :=
  ⟨(polling_behavior "g" ["queued", "queued", "running", "succeeded"]).2.1,
   ((polling_behavior "g" ["queued", "queued", "running", "succeeded"]).2.2.1).trans
     (by decide),
   (polling_behavior "g" ["queued", "queued", "running", "succeeded"]).2.2.2.2.1⟩

end CloudCleanup
